import Mathlib

/-!
# Verification of the `rust_p2p` signaling relay and connection orchestrator

A shallow embedding of the repository's code:

* `src/signal_server/src/main.rs` — the Candidate Store (nested
  `HashMap<String, HashMap<String, HashMap<Uuid, IceCandidateWithInitTime>>>`
  behind a `RwLock`), the HTTP handlers `broadcast_candidate`,
  `get_room_candidate`, `get_rooms`, and the background sweeper task.
* `src/src/p2p_client.rs` — the acceptor loop of `accept_connections`, the
  `has_pending_connection` flag and the `active_connections` registry.
* `src/src/p2p_connection.rs` — `set_candidates` and the remote-description
  state of a `P2PConnection`.

`HashMap`s are embedded as association lists (`List (key × value)`); the
entry API (`entry(k).or_insert…`) updates the first matching key in place and
appends a fresh binding at the end when the key is absent.  Times are `u64`
seconds (`get_now`), embedded as `Nat` with explicit wrap-around where the
code subtracts.  The opaque types `RTCIceCandidate` and
`RTCSessionDescription` are relayed verbatim by the server, so they are
embedded as `String`s.
-/

set_option autoImplicit false

deriving instance DecidableEq for Except

namespace RustP2P

/-- An `RTCIceCandidate`, opaque data relayed verbatim by the server. -/
abbrev Candidate := String

/-- An `RTCSessionDescription`, opaque data relayed verbatim by the server. -/
abbrev SessionDescription := String

/-- A parsed `uuid::Uuid`, represented by its lower-cased hyphenated text. -/
abbrev Uuid := String

/-- Is `c` an ASCII hexadecimal digit? (as accepted by the `uuid` crate) -/
def isHexDigit (c : Char) : Bool :=
  c.isDigit || ('a' ≤ c && c ≤ 'f') || ('A' ≤ c && c ≤ 'F')

/-- Modelled from the external `uuid` crate: `Uuid::parse_str` for the
canonical hyphenated form `8-4-4-4-12` used throughout this repository.
Accepts hex digits in either case (normalising to lower case, as the crate's
parsed value does) with hyphens at positions 8, 13, 18 and 23; every other
input is rejected, which the server maps to `BadRequest`/`NotFound`. -/
def parseUuid (s : String) : Option Uuid :=
  let cs := s.toList
  if cs.length = 36 ∧
      (List.range 36).all (fun i =>
        if i = 8 ∨ i = 13 ∨ i = 18 ∨ i = 23 then cs.getD i ' ' = '-'
        else isHexDigit (cs.getD i ' ')) then
    some (String.mk (cs.map Char.toLower))
  else
    none

/-! ## Association lists standing in for `HashMap` -/

section AList

variable {α : Type} {β : Type} [DecidableEq α]

/-- `HashMap::get`: the value bound to the first occurrence of key `k`. -/
def alLookup (k : α) : List (α × β) → Option β
  | [] => none
  | (k', v) :: rest => if k' = k then some v else alLookup k rest

/-- `HashMap::entry(k).or_insert(d)` followed by mutating the entry with `f`:
apply `f` to the existing value of the first binding of `k`, or append the
binding `(k, f d)` when `k` is absent. -/
def alInsertWith (k : α) (d : β) (f : β → β) : List (α × β) → List (α × β)
  | [] => [(k, f d)]
  | (k', v) :: rest =>
      if k' = k then (k', f v) :: rest else (k', v) :: alInsertWith k d f rest

theorem alLookup_insertWith_self (k : α) (d : β) (f : β → β) (l : List (α × β)) :
    alLookup k (alInsertWith k d f l) =
      some (f ((alLookup k l).getD d)) := by
  induction l with
  | nil => simp [alLookup, alInsertWith]
  | cons p rest ih =>
      obtain ⟨k', v⟩ := p
      by_cases h : k' = k
      · simp [alLookup, alInsertWith, h]
      · simp [alLookup, alInsertWith, h, ih]

theorem alLookup_insertWith_other {k k' : α} (d : β) (f : β → β)
    (l : List (α × β)) (h : k ≠ k') :
    alLookup k' (alInsertWith k d f l) = alLookup k' l := by
  induction l with
  | nil => simp [alLookup, alInsertWith, h]
  | cons p rest ih =>
      obtain ⟨k'', v⟩ := p
      by_cases hk : k'' = k
      · subst hk
        simp [alLookup, alInsertWith, h]
      · simp [alLookup, alInsertWith, hk, ih]

/-- Looking a key up after mapping every value commutes with the map. -/
theorem alLookup_map_val {γ : Type} (k : α) (g : β → γ) (l : List (α × β)) :
    alLookup k (l.map (fun p => (p.1, g p.2))) = (alLookup k l).map g := by
  induction l with
  | nil => simp [alLookup]
  | cons p rest ih =>
      obtain ⟨k', v⟩ := p
      by_cases h : k' = k
      · simp [alLookup, h]
      · simp [alLookup, h, ih]

/-- A key that occurs nowhere in the list looks up to `none`. -/
theorem alLookup_eq_none_of_not_mem {k : α} {l : List (α × β)}
    (h : k ∉ l.map Prod.fst) : alLookup k l = none := by
  induction l with
  | nil => rfl
  | cons p rest ih =>
      obtain ⟨k', v⟩ := p
      simp only [List.map_cons, List.mem_cons, not_or] at h
      have hne : k' ≠ k := fun he => h.1 he.symm
      simp [alLookup, hne, ih h.2]

/-- With no duplicate keys, looking up after filtering on values keeps the
binding exactly when its value passes the filter. -/
theorem alLookup_filter_val (k : α) (q : β → Bool) (l : List (α × β))
    (hnd : (l.map Prod.fst).Nodup) :
    alLookup k (l.filter (fun p => q p.2)) =
      (alLookup k l).bind (fun v => if q v then some v else none) := by
  induction l with
  | nil => simp [alLookup]
  | cons p rest ih =>
      obtain ⟨k', v⟩ := p
      simp only [List.map_cons, List.nodup_cons] at hnd
      by_cases h : k' = k
      · subst h
        by_cases hq : q v
        · simp [alLookup, List.filter_cons, hq]
        · have hsub : (rest.filter (fun p => q p.2)).map Prod.fst ⊆
              rest.map Prod.fst :=
            ((List.filter_sublist rest).map Prod.fst).subset
          have hnone : alLookup k' (rest.filter (fun p => q p.2)) = none :=
            alLookup_eq_none_of_not_mem (fun hm => hnd.1 (hsub hm))
          simp [alLookup, List.filter_cons, hq, hnone]
      · by_cases hq : q v
        · simp [alLookup, List.filter_cons, h, hq, ih hnd.2]
        · simp [alLookup, List.filter_cons, h, hq, ih hnd.2]

end AList

/-! ## The Candidate Store (`src/signal_server/src/main.rs`) -/

/-- One peer entry of the store (`IceCandidateWithInitTime`): the accumulated
candidate batches, the optional session description, and the `u64` creation
time.  `Default` gives `{candidate: [], session_description: None,
init_time: get_now()}`. -/
structure IceCandidateWithInitTime where
  candidate : List Candidate
  session_description : Option SessionDescription
  init_time : Nat
deriving DecidableEq, Repr

/-- `SocketRooms`: one channel's rooms, `HashMap<String, HashMap<Uuid, _>>`. -/
abbrev SocketRooms := List (String × List (Uuid × IceCandidateWithInitTime))

/-- `SocketChannels`: the whole store, `HashMap<String, SocketRooms>`. -/
abbrev SocketChannels := List (String × SocketRooms)

/-- Rocket's `NotFound(())`, the 404 the GET handlers fail with. -/
inductive NotFound where
  | mk
deriving DecidableEq, Repr

/-- Rocket's `BadRequest(())`, the 400 `broadcast_candidate` fails with. -/
inductive BadRequest where
  | mk
deriving DecidableEq, Repr

/-- The JSON body of an announce call (`signal_server/src/lib.rs`,
`BroadcastCandidateArgs`). -/
structure BroadcastCandidateArgs where
  candidates : List Candidate
  session_description : Option SessionDescription
deriving DecidableEq, Repr

/-- The handler `broadcast_candidate` (`POST /announce`).  Under the write
lock it (1) inserts an empty channel map and an empty room map when absent,
(2) parses `peer_id` — failing with `BadRequest` *after* those inserts —
and (3) on the entry for the parsed UUID (inserting a `Default` one when
absent) appends the batch with `Vec::extend` and overwrites
`session_description` with the (possibly absent) one from the body.  The
entry's `init_time` is written only by the `Default` at creation; the
freshly computed `init_time` of the local `candidate` struct is never
stored into an existing entry.  Returns the updated store and the HTTP
result; `now` stands for `get_now()` during the call. -/
def broadcast_candidate (channel room peer_id : String)
    (candidate_args : BroadcastCandidateArgs) (now : Nat)
    (room_map : SocketChannels) : SocketChannels × Except BadRequest Unit :=
  let room_map1 :=
    alInsertWith channel [] (fun rooms => alInsertWith room [] id rooms)
      room_map
  match parseUuid peer_id with
  | none => (room_map1, .error .mk)
  | some uuid =>
      let room_map2 :=
        alInsertWith channel [] (fun rooms =>
          alInsertWith room []
            (fun room_entry =>
              alInsertWith uuid
                { candidate := [], session_description := none,
                  init_time := now }
                (fun entry =>
                  { entry with
                    candidate := entry.candidate ++ candidate_args.candidates,
                    session_description :=
                      candidate_args.session_description })
                room_entry)
            rooms)
          room_map1
      (room_map2, .ok ())

/-- The handler `get_room_candidate` (`GET /candidate`): parse
`candidate_id`, then look up channel, room and peer, failing with
`NotFound` at the first absent one; on success return the stored
candidate list. -/
def get_room_candidate (room_map : SocketChannels)
    (channel room candidate_id : String) :
    Except NotFound (List Candidate) :=
  match parseUuid candidate_id with
  | none => .error .mk
  | some candidate_uuid =>
      match alLookup channel room_map with
      | none => .error .mk
      | some rooms =>
          match alLookup room rooms with
          | none => .error .mk
          | some room_entries =>
              match alLookup candidate_uuid room_entries with
              | none => .error .mk
              | some candidate => .ok candidate.candidate

/-- The handler `get_rooms` (`GET /rooms`): the room names of a channel, or
`NotFound` when the channel is absent. -/
def get_rooms (room_map : SocketChannels) (channel : String) :
    Except NotFound (List String) :=
  match alLookup channel room_map with
  | none => .error .mk
  | some rooms => .ok (rooms.map Prod.fst)

/-- The handler `get_candidates_in_room` (`GET /all_candidates`): the
peer-ids present in a room, or `NotFound` when channel or room is absent. -/
def get_candidates_in_room (room_map : SocketChannels)
    (channel room : String) : Except NotFound (List String) :=
  match alLookup channel room_map with
  | none => .error .mk
  | some rooms =>
      match alLookup room rooms with
      | none => .error .mk
      | some room_entries => .ok (room_entries.map Prod.fst)

/-- `u64` wrapping subtraction, the release-build meaning of `now -
v.init_time` in the sweeper. -/
def u64sub (a b : Nat) : Nat :=
  (a + (2 ^ 64 - b % 2 ^ 64)) % 2 ^ 64

theorem u64sub_eq_sub {a b : Nat} (hba : b ≤ a) (ha : a < 2 ^ 64) :
    u64sub a b = a - b := by
  unfold u64sub
  have hb : b % 2 ^ 64 = b := Nat.mod_eq_of_lt (lt_of_le_of_lt hba ha)
  rw [hb]
  have h1 : a + (2 ^ 64 - b) = (a - b) + 1 * 2 ^ 64 := by omega
  rw [h1, Nat.add_mul_mod_self_right]
  exact Nat.mod_eq_of_lt (by omega)

/-- One iteration of the sweeper task spawned in `rocket()`: under the write
lock, for every channel and every room drop the peer entries with
`now - init_time ≥ ttl` (`room.retain(|_, v| now - v.init_time < 60)`, with
`ttl = 60` in the source), then keep only the channels whose room map is
non-empty (`room_map.0.retain(|_, v| !v.0.is_empty())`).  No room is ever
removed from a surviving channel. -/
def sweepRoomFilter (now ttl : Nat)
    (entries : List (Uuid × IceCandidateWithInitTime)) :
    List (Uuid × IceCandidateWithInitTime) :=
  entries.filter (fun pe => u64sub now pe.2.init_time < ttl)

def sweepRoomsMap (now ttl : Nat) (rooms : SocketRooms) : SocketRooms :=
  rooms.map (fun rmp => (rmp.1, sweepRoomFilter now ttl rmp.2))

def sweepTick (now ttl : Nat) (room_map : SocketChannels) : SocketChannels :=
  (room_map.map (fun chp => (chp.1, sweepRoomsMap now ttl chp.2))).filter
    (fun chp => !chp.2.isEmpty)

/-- The store's entry at `(channel, room, uuid)`, the derived observation the
claims about announce and sweep are stated with. -/
def entryAt (room_map : SocketChannels) (channel room : String) (u : Uuid) :
    Option IceCandidateWithInitTime :=
  (alLookup channel room_map).bind fun rooms =>
    (alLookup room rooms).bind fun room_entries =>
      alLookup u room_entries

/-! ## How one announce call rewrites the addressed peer entry -/

/-- The single-call effect of `broadcast_candidate` on the addressed entry:
with a valid `peer_id`, the entry afterwards holds the old candidates (none
when the entry was absent) extended by the batch, the body's (possibly
absent) session description, and the old `init_time` (or `now` when the
entry was just created). -/
theorem entryAt_broadcast (ch rm pid : String)
    (args : BroadcastCandidateArgs) (now : Nat) (st : SocketChannels)
    {u : Uuid} (hp : parseUuid pid = some u) :
    entryAt (broadcast_candidate ch rm pid args now st).1 ch rm u =
      some { candidate :=
               ((entryAt st ch rm u).getD
                 { candidate := [], session_description := none,
                   init_time := now }).candidate ++ args.candidates,
             session_description := args.session_description,
             init_time :=
               ((entryAt st ch rm u).getD
                 { candidate := [], session_description := none,
                   init_time := now }).init_time } := by
  simp only [broadcast_candidate, hp, entryAt]
  rw [alLookup_insertWith_self, alLookup_insertWith_self]
  simp only [Option.getD_some, id_eq, Option.some_bind]
  rw [alLookup_insertWith_self, alLookup_insertWith_self]
  simp only [Option.getD_some, Option.some_bind]
  rw [alLookup_insertWith_self]
  rcases h1 : alLookup ch st with _ | rooms
  · simp [alLookup]
  · rcases h2 : alLookup rm rooms with _ | room_entries
    · simp [h2, alLookup]
    · rcases h3 : alLookup u room_entries with _ | e
      · simp [h2, h3]
      · simp [h2, h3]

/-- A sequence of announce calls to one `(channel, room, peer_id)`: each
element of `batches` is the body and the `get_now()` value of one call,
applied in order (`src/signal_server/src/main.rs`, `broadcast_candidate`). -/
def announceSeq (ch rm pid : String)
    (batches : List (BroadcastCandidateArgs × Nat)) (st : SocketChannels) :
    SocketChannels :=
  batches.foldl
    (fun s b => (broadcast_candidate ch rm pid b.1 b.2 s).1) st

/-- The length of the candidate list stored at `(channel, room, uuid)`;
an absent entry stores nothing. -/
def storedLen (st : SocketChannels) (ch rm : String) (u : Uuid) : Nat :=
  ((entryAt st ch rm u).getD
    { candidate := [], session_description := none, init_time := 0
    }).candidate.length

theorem storedLen_announceSeq (ch rm pid : String) {u : Uuid}
    (hp : parseUuid pid = some u)
    (batches : List (BroadcastCandidateArgs × Nat)) (st : SocketChannels) :
    storedLen (announceSeq ch rm pid batches st) ch rm u =
      storedLen st ch rm u +
        (batches.map (fun b => b.1.candidates.length)).sum := by
  induction batches generalizing st with
  | nil => simp [announceSeq]
  | cons b rest ih =>
      have hstep := entryAt_broadcast ch rm pid b.1 b.2 st hp
      have h1 : storedLen (broadcast_candidate ch rm pid b.1 b.2 st).1
          ch rm u = storedLen st ch rm u + b.1.candidates.length := by
        rcases h0 : entryAt st ch rm u with _ | e
        · rw [h0] at hstep
          simp [storedLen, hstep, h0]
        · rw [h0] at hstep
          simp [storedLen, hstep, h0]
      have hrest := ih ((broadcast_candidate ch rm pid b.1 b.2 st).1)
      simp only [announceSeq, List.foldl_cons] at hrest ⊢
      rw [hrest, h1, List.map_cons, List.sum_cons]
      omega

/-- C1: every announce call to the same `(channel, room, peer_id)` appends
its whole batch to the stored candidate list, creating channel, room and
entry as needed and never deduplicating or dropping anything: starting from
a store without that entry, after a sequence of calls with batch sizes
`k_i` the stored list has length `Σ k_i`. -/
theorem C1_announce_append_only (ch rm pid : String) {u : Uuid}
    (hp : parseUuid pid = some u)
    (batches : List (BroadcastCandidateArgs × Nat)) (st : SocketChannels)
    (habsent : entryAt st ch rm u = none) :
    storedLen (announceSeq ch rm pid batches st) ch rm u =
      (batches.map (fun b => b.1.candidates.length)).sum := by
  rw [storedLen_announceSeq ch rm pid hp batches st]
  simp [storedLen, habsent]

/-- Witness for C1: three announce calls with batches of sizes 2, 1 and 2 to
a fresh store leave a stored list of length 5. -/
theorem C1_announce_append_only_witness :
    storedLen
      (announceSeq "c" "r" "11111111-1111-1111-1111-111111111111"
        [(⟨["x", "y"], none⟩, 0), (⟨["x"], some "d"⟩, 1),
         (⟨["y", "z"], none⟩, 2)] [])
      "c" "r" "11111111-1111-1111-1111-111111111111" = 5 := by
  rw [C1_announce_append_only "c" "r"
      "11111111-1111-1111-1111-111111111111" (by decide)
      [(⟨["x", "y"], none⟩, 0), (⟨["x"], some "d"⟩, 1),
       (⟨["y", "z"], none⟩, 2)] [] (by decide)]
  decide

/-! ## The sweeper -/

theorem alLookup_ne_nil {α β : Type} [DecidableEq α] {k : α}
    {l : List (α × β)} {v : β} (h : alLookup k l = some v) : l ≠ [] := by
  intro he
  subst he
  exact Option.noConfusion h

/-- Mapping every value of an association list leaves its key list alone. -/
theorem map_fst_map_val {α β γ : Type} (g : β → γ) (l : List (α × β)) :
    (l.map (fun p => (p.1, g p.2))).map Prod.fst = l.map Prod.fst := by
  induction l with
  | nil => rfl
  | cons p rest ih => simp [ih]

/-- C4: a sweep at `now` with the given `ttl` removes a peer entry exactly
when `now - last_update ≥ ttl` and keeps it (unchanged) exactly when the
entry is strictly younger.  Stated for every store whose `HashMap`-backed
key lists are duplicate-free and whose timestamp is not in `now`'s future,
as the running server guarantees. -/
theorem C4_sweep_removes_iff_expired (st : SocketChannels) (ch rm : String)
    (u : Uuid) (now ttl : Nat) (rooms : SocketRooms)
    (room_entries : List (Uuid × IceCandidateWithInitTime))
    (e : IceCandidateWithInitTime)
    (hch : alLookup ch st = some rooms)
    (hrm : alLookup rm rooms = some room_entries)
    (hu : alLookup u room_entries = some e)
    (hndc : (st.map Prod.fst).Nodup)
    (hndp : (room_entries.map Prod.fst).Nodup)
    (hle : e.init_time ≤ now) (hnow : now < 2 ^ 64) :
    entryAt (sweepTick now ttl st) ch rm u =
      if now - e.init_time < ttl then some e else none := by
  unfold sweepTick entryAt
  rw [alLookup_filter_val ch (fun v => !v.isEmpty)
      (st.map (fun chp => (chp.1, sweepRoomsMap now ttl chp.2)))
      (by rw [map_fst_map_val]; exact hndc)]
  rw [alLookup_map_val ch (sweepRoomsMap now ttl) st, hch]
  have hne : (sweepRoomsMap now ttl rooms).isEmpty = false := by
    have h0 : rooms ≠ [] := alLookup_ne_nil hrm
    rcases rooms with _ | ⟨p, rest⟩
    · exact absurd rfl h0
    · rfl
  simp only [Option.map_some', Option.some_bind, hne, Bool.not_false, if_true]
  rw [show sweepRoomsMap now ttl rooms =
      rooms.map (fun rmp => (rmp.1, sweepRoomFilter now ttl rmp.2)) from rfl]
  rw [alLookup_map_val rm (sweepRoomFilter now ttl) rooms, hrm]
  simp only [Option.map_some', Option.some_bind]
  unfold sweepRoomFilter
  rw [alLookup_filter_val u
      (fun pe => decide (u64sub now pe.init_time < ttl)) room_entries hndp,
    hu]
  simp only [Option.some_bind]
  rw [u64sub_eq_sub hle hnow]
  by_cases hc : now - e.init_time < ttl <;> simp [hc]

/-- The store `{c → {r → {U1 ↦ created 40, U2 ↦ created 50}}}` used to
instantiate the sweep claims. -/
def c4Store : SocketChannels :=
  [("c", [("r",
    [("11111111-1111-1111-1111-111111111111",
      { candidate := ["x"], session_description := none, init_time := 40 }),
     ("22222222-2222-2222-2222-222222222222",
      { candidate := ["y"], session_description := none,
        init_time := 50 })])])]

/-- Witness for C4: sweeping `c4Store` at `now = 100`, `ttl = 60` removes
`U1` (aged exactly `ttl`) and keeps `U2` (aged 50). -/
theorem C4_sweep_removes_iff_expired_witness :
    entryAt (sweepTick 100 60 c4Store) "c" "r"
      "11111111-1111-1111-1111-111111111111" = none ∧
    entryAt (sweepTick 100 60 c4Store) "c" "r"
      "22222222-2222-2222-2222-222222222222" =
        some { candidate := ["y"], session_description := none,
               init_time := 50 } := by
  constructor
  · rw [C4_sweep_removes_iff_expired c4Store "c" "r"
      "11111111-1111-1111-1111-111111111111" 100 60
      [("r",
        [("11111111-1111-1111-1111-111111111111",
          { candidate := ["x"], session_description := none,
            init_time := 40 }),
         ("22222222-2222-2222-2222-222222222222",
          { candidate := ["y"], session_description := none,
            init_time := 50 })])]
      [("11111111-1111-1111-1111-111111111111",
        { candidate := ["x"], session_description := none,
          init_time := 40 }),
       ("22222222-2222-2222-2222-222222222222",
        { candidate := ["y"], session_description := none,
          init_time := 50 })]
      { candidate := ["x"], session_description := none, init_time := 40 }
      rfl rfl rfl (by decide) (by decide) (by decide) (by decide)]
    decide
  · rw [C4_sweep_removes_iff_expired c4Store "c" "r"
      "22222222-2222-2222-2222-222222222222" 100 60
      [("r",
        [("11111111-1111-1111-1111-111111111111",
          { candidate := ["x"], session_description := none,
            init_time := 40 }),
         ("22222222-2222-2222-2222-222222222222",
          { candidate := ["y"], session_description := none,
            init_time := 50 })])]
      [("11111111-1111-1111-1111-111111111111",
        { candidate := ["x"], session_description := none,
          init_time := 40 }),
       ("22222222-2222-2222-2222-222222222222",
        { candidate := ["y"], session_description := none,
          init_time := 50 })]
      { candidate := ["y"], session_description := none, init_time := 50 }
      rfl rfl rfl (by decide) (by decide) (by decide) (by decide)]
    decide

/-! ## Concrete stores for the remaining relay claims -/

/-- A valid hyphenated peer id, `U1` of the spec's concrete scenario. -/
def uuidA : String := "11111111-1111-1111-1111-111111111111"

/-- A second valid peer id, `U2`, never announced in the scenarios. -/
def uuidB : String := "22222222-2222-2222-2222-222222222222"

/-- `{c → {r → {U1 ↦ one candidate, created at time 0}}}`, built by one
announce call on a fresh store. -/
def c2Store : SocketChannels :=
  (broadcast_candidate "c" "r" uuidA
    { candidates := ["x"], session_description := none } 0 []).1

/-- C2, at the code's behavior: sweeping `c2Store` at `now = 60`,
`ttl = 60` removes the room's only peer entry, yet the emptied room `"r"`
still appears in `get_rooms` for channel `"c"` — the sweeper's channel
`retain` only drops channels whose room map is empty and never removes an
emptied room, contradicting the claim (and the sweeper's own comment). -/
theorem C2_sweep_keeps_empty_room :
    entryAt (sweepTick 60 60 c2Store) "c" "r" uuidA = none ∧
    get_rooms (sweepTick 60 60 c2Store) "c" = .ok ["r"] := by
  decide

/-- `c2Store` announced again for the same peer at time 59: the re-announce
appends a candidate but, in the code, does not touch `init_time`. -/
def c3Store : SocketChannels :=
  (broadcast_candidate "c" "r" uuidA
    { candidates := ["y"], session_description := none } 59 c2Store).1

/-- C3, at the code's behavior: after announcing at time 0 and re-announcing
at time 59, the entry's `init_time` is still 0 (the freshly computed
timestamp is discarded for existing entries), so a sweep at `now = 60` with
`ttl = 60` removes the peer even though it re-announced one time unit
earlier — contradicting the claim that a re-announce refreshes the
timestamp and survives that sweep. -/
theorem C3_reannounce_keeps_stale_timestamp :
    (entryAt c3Store "c" "r" uuidA).map (fun e => e.init_time) = some 0 ∧
    entryAt (sweepTick 60 60 c3Store) "c" "r" uuidA = none := by
  decide

/-- A store whose single entry holds the stored description `"desc"`. -/
def c5Store0 : SocketChannels :=
  (broadcast_candidate "c" "r" uuidA
    { candidates := ["x"], session_description := some "desc" } 0 []).1

/-- `c5Store0` after an announce whose body carries no description. -/
def c5Store1 : SocketChannels :=
  (broadcast_candidate "c" "r" uuidA
    { candidates := ["z"], session_description := none } 1 c5Store0).1

/-- Counterexample to C5: before the description-less announce the entry
stores the description `"desc"`; afterwards it stores none — the stored
session description did not stay unchanged. -/
theorem C5_absent_description_not_preserved :
    (entryAt c5Store0 "c" "r" uuidA).map (fun e => e.session_description) =
      some (some "desc") ∧
    (entryAt c5Store1 "c" "r" uuidA).map (fun e => e.session_description) =
      some none := by
  decide

/-- C5 as amended: `broadcast_candidate` with a valid peer id always
replaces the stored session description with the body's optional
description — in particular an announce without a description clears the
stored one rather than leaving it unchanged. -/
theorem C5_announce_overwrites_description (ch rm pid : String) (u : Uuid)
    (hp : parseUuid pid = some u) (args : BroadcastCandidateArgs)
    (now : Nat) (st : SocketChannels) :
    (entryAt (broadcast_candidate ch rm pid args now st).1 ch rm u).map
        (fun e => e.session_description) = some args.session_description := by
  rw [entryAt_broadcast ch rm pid args now st hp]
  rfl

/-- Witness for the amended C5: the description-less announce building
`c5Store1` leaves the entry with no stored description. -/
theorem C5_announce_overwrites_description_witness :
    (entryAt c5Store1 "c" "r" uuidA).map (fun e => e.session_description) =
      some none :=
  C5_announce_overwrites_description "c" "r" uuidA uuidA (by decide)
    { candidates := ["z"], session_description := none } 1 c5Store0

/-- C6: with a well-formed `candidate_id`, `get_room_candidate` returns the
stored candidate list when channel, room and peer are all present, and
fails with `NotFound` when any of the three is absent. -/
theorem C6_get_candidates (st : SocketChannels) (ch rm cid : String)
    (u : Uuid) (hp : parseUuid cid = some u) :
    get_room_candidate st ch rm cid =
      match entryAt st ch rm u with
      | some e => .ok e.candidate
      | none => .error .mk := by
  unfold get_room_candidate entryAt
  rw [hp]
  rcases h1 : alLookup ch st with _ | rooms
  · simp [h1]
  · rcases h2 : alLookup rm rooms with _ | room_entries
    · simp [h1, h2]
    · rcases h3 : alLookup u room_entries with _ | c
      · simp [h1, h2, h3]
      · simp [h1, h2, h3]

/-- The spec's concrete scenario store:
`announce(channel = "c", room = "r", peer_id = U1, candidates = [x, y])`
on a fresh store. -/
def c6Store : SocketChannels :=
  (broadcast_candidate "c" "r" uuidA
    { candidates := ["x", "y"], session_description := none } 0 []).1

/-- Witness for C6, the spec's concrete scenario: `get_candidates` for the
announced `U1` returns `[x, y]`, and for the unannounced `U2` fails with
`NotFound`. -/
theorem C6_get_candidates_witness :
    get_room_candidate c6Store "c" "r" uuidA = .ok ["x", "y"] ∧
    get_room_candidate c6Store "c" "r" uuidB = .error .mk := by
  constructor
  · rw [C6_get_candidates c6Store "c" "r" uuidA uuidA (by decide)]
    decide
  · rw [C6_get_candidates c6Store "c" "r" uuidB uuidB (by decide)]
    decide

/-- C9: an announce whose `peer_id` does not parse returns `BadRequest`,
but only after inserting the (empty) channel and room maps, so
`get_rooms` on a previously unknown channel succeeds afterwards with
exactly that room instead of failing `NotFound`. -/
theorem C9_invalid_peer_still_creates_room (ch rm pid : String)
    (args : BroadcastCandidateArgs) (now : Nat) (st : SocketChannels)
    (hp : parseUuid pid = none) (hch : alLookup ch st = none) :
    (broadcast_candidate ch rm pid args now st).2 = .error .mk ∧
    get_rooms (broadcast_candidate ch rm pid args now st).1 ch =
      .ok [rm] := by
  constructor
  · simp [broadcast_candidate, hp]
  · simp only [broadcast_candidate, hp, get_rooms]
    rw [alLookup_insertWith_self, hch]
    simp [alInsertWith]

/-- Witness for C9: announcing with the unparsable peer id `"not-a-uuid"`
on a fresh store is rejected with 400 yet leaves channel `"c"` listing
room `"r"`. -/
theorem C9_invalid_peer_still_creates_room_witness :
    (broadcast_candidate "c" "r" "not-a-uuid"
      { candidates := ["x"], session_description := none } 0 []).2 =
        .error .mk ∧
    get_rooms (broadcast_candidate "c" "r" "not-a-uuid"
      { candidates := ["x"], session_description := none } 0 []).1 "c" =
        .ok ["r"] :=
  C9_invalid_peer_still_creates_room "c" "r" "not-a-uuid"
    { candidates := ["x"], session_description := none } 0 []
    (by decide) (by decide)

/-! ## The Connection (`src/src/p2p_connection.rs`) -/

/-- The negotiation-relevant state of a `P2PConnection`: the engine's
remote description cell (set by `set_remote_description` inside
`set_answer`/`get_answer`) and the list of remote candidates handed to the
engine by `connection.add_ice_candidate`. -/
structure P2PConnection where
  remote_description : Option SessionDescription
  engine_candidates : List Candidate
deriving DecidableEq, Repr

/-- A fresh connection from `P2PConnection::new`: engine instance and data
channel exist, no description exchanged, no candidate applied. -/
def P2PConnection.fresh : P2PConnection :=
  { remote_description := none, engine_candidates := [] }

/-- The error taxonomy of the connection layer: `engineError` for a
propagated opaque-engine failure, `notReady` for the spec's
"prerequisite negotiation step missing" error (which no code path of
`p2p_connection.rs` ever produces). -/
inductive ConnError where
  | engineError
  | notReady
deriving DecidableEq, Repr

/-- `set_answer` / the remote half of `get_answer`:
`self.connection.set_remote_description(offer)`. -/
def P2PConnection.set_answer (conn : P2PConnection)
    (answer : SessionDescription) : P2PConnection :=
  { conn with remote_description := some answer }

/-- `set_candidates`: `for candidate in candidates {
self.connection.add_ice_candidate(candidate).await?; }` — every candidate
is handed straight to the opaque engine and the call returns `Ok(())`;
nothing inspects the remote-description state first.  The opaque engine is
modelled as accepting each candidate, since the claim concerns this
layer's (missing) readiness gate, not engine internals. -/
def P2PConnection.set_candidates (conn : P2PConnection)
    (candidates : List Candidate) : P2PConnection × Except ConnError Unit :=
  ({ conn with engine_candidates := conn.engine_candidates ++ candidates },
    .ok ())

/-- C7, at the code's behavior: on a fresh connection whose remote
description is still unset, `set_candidates` does not fail with
`NotReady` — it returns `Ok` and forwards the candidate to the engine;
after `set_answer` the same call behaves identically.  This contradicts
the claim that early application fails with `NotReady` instead of being
forwarded. -/
theorem C7_set_candidates_not_gated :
    P2PConnection.fresh.remote_description = none ∧
    (P2PConnection.fresh.set_candidates ["cand"]).2 = .ok () ∧
    (P2PConnection.fresh.set_candidates ["cand"]).1.engine_candidates =
      ["cand"] ∧
    ((P2PConnection.fresh.set_answer "answer").set_candidates
      ["cand"]).2 = .ok () := by
  decide

/-! ## The Connection Orchestrator (`src/src/p2p_client.rs`) -/

/-- The fields of `P2PClient` that the acceptor-loop claims observe: the
`has_pending_connection` atomic flag, the length of the
`active_connections` registry (`Vec<P2PConnection>` — the connections
themselves are opaque here), and the configured `max_connections`. -/
structure P2PClient where
  has_pending_connection : Bool
  active_connections : Nat
  max_connections : Nat
deriving DecidableEq, Repr

/-- `P2PClientBuilder::build`: `has_pending_connection` starts at
`AtomicBool::new(false)` and the registry at `Vec::new()`. -/
def P2PClient.build (max_connections : Nat) : P2PClient :=
  { has_pending_connection := false, active_connections := 0,
    max_connections := max_connections }

/-- One pass of the loop spawned by `accept_connections`: create a
connection, store `true` into `has_pending_connection`, broadcast the
offer (outcome `offerOk`; on failure the `?` ends the task without
pushing), push the connection and read the registry length, and continue
exactly when that length is still below `max_connections`.  Returns the
state and whether the loop runs another pass. -/
def acceptIter (s : P2PClient) (offerOk : Bool) : P2PClient × Bool :=
  let s1 := { s with has_pending_connection := true }
  if offerOk then
    let s2 := { s1 with active_connections := s1.active_connections + 1 }
    (s2, decide (s2.active_connections < s2.max_connections))
  else
    (s1, false)

/-- The acceptor loop on its success path (every `broadcast_offer`
succeeds), iterating `acceptIter` until the registry count reaches
`max_connections`. -/
def acceptLoop (s : P2PClient) : P2PClient :=
  if h : (acceptIter s true).2 then acceptLoop (acceptIter s true).1
  else (acceptIter s true).1
termination_by s.max_connections - s.active_connections
decreasing_by
  simp [acceptIter] at h ⊢
  omega

/-- The public operations of `P2PClient` as state transformers:
one acceptor-loop pass (with its offer outcome), and the read-only
`has_pending_connection()` and `active_connections_count()` queries. -/
inductive ClientOp where
  | acceptIteration (offerOk : Bool)
  | hasPendingQuery
  | activeCountQuery
deriving DecidableEq, Repr

def clientStep (op : ClientOp) (s : P2PClient) : P2PClient :=
  match op with
  | .acceptIteration b => (acceptIter s b).1
  | .hasPendingQuery => s
  | .activeCountQuery => s

/-- C10: the `has_pending_connection` flag is one-way — it starts `false`
at `build`, every acceptor-loop pass stores `true` before the offer
broadcast (so even a failing broadcast leaves it `true`), and no client
operation ever stores `false`, so once set it stays set. -/
theorem C10_has_pending_one_way :
    (∀ m, (P2PClient.build m).has_pending_connection = false) ∧
    (∀ (s : P2PClient) (b : Bool),
      (acceptIter s b).1.has_pending_connection = true) ∧
    (∀ (s : P2PClient) (op : ClientOp),
      s.has_pending_connection = true →
        (clientStep op s).has_pending_connection = true) := by
  refine ⟨fun m => rfl, fun s b => ?_, fun s op h => ?_⟩
  · by_cases hb : b <;> simp [acceptIter, hb]
  · cases op with
    | acceptIteration b => by_cases hb : b <;> simp [clientStep, acceptIter, hb]
    | hasPendingQuery => exact h
    | activeCountQuery => exact h

/-- Witness for C10: a fresh client's flag is `false`; one loop pass (even
with a failing broadcast) raises it; afterwards a query, a successful pass
and a failing pass all leave it `true`. -/
theorem C10_has_pending_one_way_witness :
    (P2PClient.build 4).has_pending_connection = false ∧
    (acceptIter (P2PClient.build 4) false).1.has_pending_connection = true ∧
    (clientStep .hasPendingQuery
      { has_pending_connection := true, active_connections := 1,
        max_connections := 4 }).has_pending_connection = true ∧
    (clientStep (.acceptIteration false)
      { has_pending_connection := true, active_connections := 1,
        max_connections := 4 }).has_pending_connection = true :=
  ⟨C10_has_pending_one_way.1 4,
   C10_has_pending_one_way.2.1 (P2PClient.build 4) false,
   C10_has_pending_one_way.2.2 _ .hasPendingQuery rfl,
   C10_has_pending_one_way.2.2 _ (.acceptIteration false) rfl⟩

/-- Counterexample to C8: with `max_connections = 0` the loop body runs
once before the bound is checked, so it completes one connection and
leaves the registry holding `1 > 0` connections — the loop does not stop
"exactly when the count reaches `max_connections`" for every configured
maximum. -/
theorem C8_max_zero_still_accepts_one :
    (acceptLoop (P2PClient.build 0)).active_connections = 1 ∧
    ¬(acceptLoop (P2PClient.build 0)).active_connections ≤
        (P2PClient.build 0).max_connections := by
  have h : acceptLoop (P2PClient.build 0) =
      (acceptIter (P2PClient.build 0) true).1 := by
    unfold acceptLoop
    simp [acceptIter, P2PClient.build]
  rw [h]
  simp [acceptIter, P2PClient.build]

theorem acceptLoop_fills (k : Nat) :
    ∀ s : P2PClient, s.max_connections - s.active_connections ≤ k →
      s.active_connections < s.max_connections →
      (acceptLoop s).active_connections = s.max_connections ∧
      (acceptLoop s).max_connections = s.max_connections := by
  induction k with
  | zero => intro s hk h; omega
  | succ n ih =>
      intro s hk h
      have hiter : (acceptIter s true).1 =
          { s with has_pending_connection := true,
                   active_connections := s.active_connections + 1 } := rfl
      unfold acceptLoop
      by_cases hc : (acceptIter s true).2
      · rw [dif_pos hc]
        have hc' : s.active_connections + 1 < s.max_connections := by
          simpa [acceptIter] using hc
        have := ih (acceptIter s true).1
          (by rw [hiter]; simp; omega) (by rw [hiter]; simpa)
        rw [hiter] at this
        simpa using this
      · rw [dif_neg hc]
        have hc' : ¬s.active_connections + 1 < s.max_connections := by
          simpa [acceptIter] using hc
        rw [hiter]
        simp
        omega

/-- C8 as amended: for every `max_connections ≥ 1`, the success-path
acceptor loop on a freshly built client stops with the registry holding
exactly `max_connections` connections (the check runs after each push, so
a `max_connections` of 0 still completes one connection first). -/
theorem C8_bounded_acceptor_fills_max (m : Nat) (hm : 1 ≤ m) :
    (acceptLoop (P2PClient.build m)).active_connections = m :=
  (acceptLoop_fills m (P2PClient.build m)
    (by simp [P2PClient.build]) (by simp [P2PClient.build]; omega)).1

/-- Witness for the amended C8: with `max_connections = 2` the loop stops
with exactly 2 connections in the registry. -/
theorem C8_bounded_acceptor_fills_max_witness :
    (acceptLoop (P2PClient.build 2)).active_connections = 2 :=
  C8_bounded_acceptor_fills_max 2 (by decide)

end RustP2P
